import Mathlib

/-
  Verification development for the confix runtime schema system
  (lib/confix/__init__.py): typed record definitions (Struct), parametric
  container types (List<T>, Map<K,V>), the recursive value-conversion
  algorithm, the generic-type memoization cache, the translation side-table
  and the intermediate-representation inference pass.

  Modelling conventions (the embedding is of Python 2 code):
  - Python type objects that may appear as a field / element type are the
    inductive `Ty` (int, str, generated List and Map classes, and classes
    generated by `make_struct`, identified by a numeric class id).
  - Python runtime values are the inductive `Value`: None, int, str, plain
    list, plain dict, instances of generated List / Map classes, and Struct
    instances.  A Struct instance carries its class's `_strict` flag, a
    numeric class id (standing for the identity of its class, and hence of
    its schema) and its `_attrs` dictionary.
  - Dictionaries are association lists; `dget` is Python's `d[k]`
    (first-match lookup) and `dset` is `d[k] = v` (update first binding in
    place, else append).  Python dicts never hold duplicate keys, so on the
    states actually reachable the two coincide with finite-map semantics.
  - Raising an exception is returning `.error e` (`Except`), or, for the
    mutating operations, returning the pre-raise object state paired with
    `some e`: the translation performs mutations exactly where the Python
    statement sequence does, so the state returned with an error is the
    state the object is left in when the exception propagates.
-/

namespace Confix

/-- Python type objects usable as a confix field/element type: `int`, `str`,
the memoized classes `List(elem)` and `Map(key, val)`, and Struct subclasses
created by `make_struct`/`_StructMetaclass` (identified by class id). -/
inductive Ty : Type where
  | intT : Ty
  | strT : Ty
  | listT (elem : Ty) : Ty
  | mapT (key val : Ty) : Ty
  | structT (sid : Nat) : Ty
deriving DecidableEq, Repr

/-- Python exceptions raised by the confix core: `TypeError` (the spec's
TypeKind error), `AttributeError(name)` (UnknownFieldError / MissingFieldError),
`IndexError` and `KeyError` (KeyNotFoundError). -/
inductive Err : Type where
  | typeError : Err
  | attributeError (name : String) : Err
  | indexError : Err
  | keyError : Err
deriving DecidableEq, Repr

/-- Python runtime values of the confix data model.  `pylist`/`pydict` are
plain `list`/`dict` objects; `vlist t es` is an instance of the generated
class `List(t)` holding `_elems = es`; `vmap k v es` is an instance of
`Map(k, v)` holding `_map = es`; `vstruct strict sid attrs` is an instance
of a Struct class with `_strict = strict`, class identity `sid` and
`_attrs = attrs`. -/
inductive Value : Type where
  | none : Value
  | int (n : Int) : Value
  | str (s : String) : Value
  | pylist (elems : List Value) : Value
  | pydict (entries : List (Value × Value)) : Value
  | vlist (elem : Ty) (elems : List Value) : Value
  | vmap (key val : Ty) (entries : List (Value × Value)) : Value
  | vstruct (strict : Bool) (sid : Nat) (attrs : List (String × Value)) : Value
deriving Repr

/-- The `default` slot of a `FieldDef`: the `NoDefault` marker (required
field), the `Undefined` marker (optional field), or a concrete default. -/
inductive Dflt : Type where
  | noDefault : Dflt
  | undefined : Dflt
  | val (v : Value) : Dflt
deriving Repr

/-- A field definition (`FieldDef`): the declared type and the default.
The `name` and `doc` slots play no role in the dynamic semantics; the field
name is the key under which the `FieldDef` is stored in the schema. -/
structure FieldDef : Type where
  type : Ty
  default : Dflt
deriving Repr

/-- Python dict lookup `m[k]` on an association list: first matching
binding. -/
def dget {κ α : Type} [DecidableEq κ] (k : κ) : List (κ × α) → Option α
  | [] => Option.none
  | (k', v) :: rest => if k' = k then some v else dget k rest

/-- Python dict assignment `m[k] = v` on an association list: replace the
first binding of `k`, else append a new binding. -/
def dset {κ α : Type} [DecidableEq κ] (m : List (κ × α)) (k : κ) (v : α) :
    List (κ × α) :=
  match m with
  | [] => [(k, v)]
  | (k', w) :: rest => if k' = k then (k, v) :: rest else (k', w) :: dset rest k v

theorem dget_dset_self {κ α : Type} [DecidableEq κ] (m : List (κ × α)) (k : κ) (v : α) :
    dget k (dset m k v) = some v := by
  induction m with
  | nil => simp [dget, dset]
  | cons p rest ih =>
      obtain ⟨k', w⟩ := p
      by_cases h : k' = k <;> simp [dget, dset, h, ih]

theorem dget_dset_other {κ α : Type} [DecidableEq κ] (m : List (κ × α)) (k k' : κ) (v : α)
    (h : k' ≠ k) : dget k' (dset m k v) = dget k' m := by
  induction m with
  | nil => simp [dget, dset, Ne.symm h]
  | cons p rest ih =>
      obtain ⟨k0, w⟩ := p
      by_cases h0 : k0 = k
      · subst h0
        simp [dget, dset, Ne.symm h]
      · simp only [dset, if_neg h0, dget]
        by_cases h1 : k0 = k' <;> simp [dget, h1, ih]

theorem dget_append_left {κ α : Type} [DecidableEq κ] (l l' : List (κ × α)) (k : κ) (t : α)
    (h : dget k l = some t) : dget k (l ++ l') = some t := by
  induction l with
  | nil => simp [dget] at h
  | cons p rest ih =>
      obtain ⟨k0, w⟩ := p
      by_cases h0 : k0 = k <;> simp_all [dget]

/-- `isinstance(v, t)` for the modelled type objects.  Instances of the
memoized generated classes match exactly their own parameterization (the
factory returns the identical class for identical parameters, so class
identity coincides with parameter equality); Struct instances match exactly
their own class. -/
def isinst : Value → Ty → Bool
  | .int _, .intT => true
  | .str _, .strT => true
  | .vlist e _, .listT e' => decide (e = e')
  | .vmap k v _, .mapT k' v' => decide (k = k') && decide (v = v')
  | .vstruct _ sid _, .structT sid' => decide (sid = sid')
  | _, _ => false

/-- Convert each element of a list, propagating the first failure
(the generator argument of `ListBase.__init__`). -/
def exceptList {α β : Type} (f : α → Except Err β) : List α → Except Err (List β)
  | [] => .ok []
  | x :: xs =>
      match f x with
      | .error e => .error e
      | .ok y =>
          match exceptList f xs with
          | .error e => .error e
          | .ok ys => .ok (y :: ys)

/-- Convert each key/value pair of a dict-like object, propagating the first
failure (`MapBase.__init__`'s loop `self._map[conv(key)] = conv(val)`; in
the assignment statement the value expression is evaluated before the
subscript expression). -/
def exceptPairs {α β γ δ : Type} (fk : α → Except Err γ) (fv : β → Except Err δ) :
    List (α × β) → Except Err (List (γ × δ))
  | [] => .ok []
  | (k, v) :: rest =>
      match fv v with
      | .error e => .error e
      | .ok v' =>
          match fk k with
          | .error e => .error e
          | .ok k' =>
              match exceptPairs fk fv rest with
              | .error e => .error e
              | .ok rest' => .ok ((k', v') :: rest')

/-- `_convert(type, val)`: return `val` unchanged if it is already an
instance of `type`; otherwise, for the generic container types, delegate to
the class's `convert` (`ListBase.convert` accepts a plain list and coerces
each element; `MapBase.convert` accepts any object with `iteritems` — a
plain dict or a Map of any parameterization — and coerces keys and values);
everything else raises `TypeError`. -/
def pyconvert : Ty → Value → Except Err Value
  | .intT => fun v => if isinst v .intT then .ok v else .error .typeError
  | .strT => fun v => if isinst v .strT then .ok v else .error .typeError
  | .structT sid => fun v =>
      if isinst v (.structT sid) then .ok v else .error .typeError
  | .listT e => fun v =>
      if isinst v (.listT e) then .ok v
      else
        match v with
        | .pylist es => (exceptList (pyconvert e) es).map (Value.vlist e)
        | _ => .error .typeError
  | .mapT k vt => fun v =>
      if isinst v (.mapT k vt) then .ok v
      else
        match v with
        | .pydict es =>
            (exceptPairs (pyconvert k) (pyconvert vt) es).map (Value.vmap k vt)
        | .vmap _ _ es =>
            (exceptPairs (pyconvert k) (pyconvert vt) es).map (Value.vmap k vt)
        | _ => .error .typeError

/-- A value that is already an instance of `t` passes through `_convert`
unchanged. -/
theorem pyconvert_of_isinst (t : Ty) (v : Value) (h : isinst v t = true) :
    pyconvert t v = .ok v := by
  cases t <;> simp [pyconvert, h]

theorem exceptList_error {α β : Type} (f : α → Except Err β)
    (hf : ∀ x e', f x = .error e' → e' = .typeError) :
    ∀ (l : List α) (e : Err), exceptList f l = .error e → e = .typeError := by
  intro l
  induction l with
  | nil => intro e h; simp [exceptList] at h
  | cons x xs ih =>
      intro e h
      simp only [exceptList] at h
      split at h
      · rename_i e0 hx
        cases h
        exact hf x _ hx
      · split at h
        · rename_i e1 hxs
          cases h
          exact ih _ hxs
        · exact absurd h (by simp)

theorem exceptPairs_error {α β γ δ : Type} (fk : α → Except Err γ) (fv : β → Except Err δ)
    (hk : ∀ x e', fk x = .error e' → e' = .typeError)
    (hv : ∀ x e', fv x = .error e' → e' = .typeError) :
    ∀ (l : List (α × β)) (e : Err), exceptPairs fk fv l = .error e → e = .typeError := by
  intro l
  induction l with
  | nil => intro e h; simp [exceptPairs] at h
  | cons p rest ih =>
      obtain ⟨k, v⟩ := p
      intro e h
      simp only [exceptPairs] at h
      split at h
      · rename_i e0 hx
        cases h
        exact hv v _ hx
      · split at h
        · rename_i e1 hy
          cases h
          exact hk k _ hy
        · split at h
          · rename_i e2 hr
            cases h
            exact ih _ hr
          · exact absurd h (by simp)

/-- Every failure of the conversion algorithm is a `TypeError` (the spec's
TypeKind error): `_convert` raises only `TypeError`, and nested conversion
failures propagate unchanged. -/
theorem except_map_error {α β : Type} (f : α → β) (x : Except Err α) (e : Err)
    (h : Except.map f x = .error e) : x = .error e := by
  cases x <;> simp_all [Except.map]

theorem pyconvert_error (t : Ty) :
    ∀ (v : Value) (e : Err), pyconvert t v = .error e → e = .typeError := by
  induction t with
  | intT =>
      intro v e h
      simp only [pyconvert] at h
      split at h <;> simp_all
  | strT =>
      intro v e h
      simp only [pyconvert] at h
      split at h <;> simp_all
  | structT sid =>
      intro v e h
      simp only [pyconvert] at h
      split at h <;> simp_all
  | listT et ih =>
      intro v e h
      simp only [pyconvert] at h
      split at h
      · simp_all
      · split at h
        · exact exceptList_error (pyconvert et) ih _ _ (except_map_error _ _ _ h)
        · simp_all
  | mapT kt vt ihk ihv =>
      intro v e h
      simp only [pyconvert] at h
      split at h
      · simp_all
      · split at h
        · exact exceptPairs_error (pyconvert kt) (pyconvert vt) ihk ihv _ _
            (except_map_error _ _ _ h)
        · exact exceptPairs_error (pyconvert kt) (pyconvert vt) ihk ihv _ _
            (except_map_error _ _ _ h)
        · simp_all

/-- The mutable state of a Struct instance together with the (immutable)
data of its class: the class's `_strict` flag and `_schema`, and the
instance's `_attrs` dictionary. -/
structure StructState : Type where
  strict : Bool
  schema : List (String × FieldDef)
  attrs : List (String × Value)
deriving Repr

/-- `Struct.__setattr__(self, attr, val)`: look `attr` up in the schema and
convert `val` to the field type (a conversion failure propagates before any
mutation); on a schema miss (`KeyError`) a strict record raises
`AttributeError(attr)`, a loose record falls through; finally store the
(possibly converted) value in `_attrs`.  The returned state is the state
the object is left in (unchanged whenever an error is returned, because the
Python code raises before the `self._attrs[attr] = val` statement). -/
def structSetattr (s : StructState) (attr : String) (v : Value) :
    StructState × Option Err :=
  match dget attr s.schema with
  | some fd =>
      match pyconvert fd.type v with
      | .error e => (s, some e)
      | .ok w => ({ s with attrs := dset s.attrs attr w }, Option.none)
  | Option.none =>
      if s.strict then (s, some (.attributeError attr))
      else ({ s with attrs := dset s.attrs attr v }, Option.none)

/-- `Struct.__getattr__(self, attr)`: return `self._attrs[attr]`, turning
the `KeyError` of a missing key into `AttributeError(attr)`. -/
def structGetattr (s : StructState) (attr : String) : Except Err Value :=
  match dget attr s.attrs with
  | some v => .ok v
  | Option.none => .error (.attributeError attr)

/-- The first loop of `Struct.__init__`: for every schema entry whose
default is neither `Undefined` nor `NoDefault`, assign the default through
`setattr`.  A `TypeError` raised by the conversion is caught and re-raised
as a `TypeError` naming the attribute (same error kind); no other error can
escape this loop. -/
def applyDefaults (s : StructState) :
    List (String × FieldDef) → StructState × Option Err
  | [] => (s, Option.none)
  | (attr, fd) :: rest =>
      match fd.default with
      | .val d =>
          match structSetattr s attr d with
          | (s', Option.none) => applyDefaults s' rest
          | (s', some e) => (s', some e)
      | _ => applyDefaults s rest

/-- The second loop of `Struct.__init__`: assign each keyword argument
through `setattr`, stopping at the first error. -/
def applyKwargs (s : StructState) :
    List (String × Value) → StructState × Option Err
  | [] => (s, Option.none)
  | (attr, v) :: rest =>
      match structSetattr s attr v with
      | (s', Option.none) => applyKwargs s' rest
      | (s', some e) => (s', some e)

/-- `Struct.__init__(self, **kwargs)` for a class with `_strict = strict`
and `_schema = schema`: start from an empty `_attrs` dict, populate every
field that has a concrete default (skipping `Undefined` and `NoDefault`
fields), then apply the caller-supplied kwargs, each through the
attribute-set path. -/
def structInit (strict : Bool) (schema : List (String × FieldDef))
    (kwargs : List (String × Value)) : StructState × Option Err :=
  match applyDefaults ⟨strict, schema, []⟩ schema with
  | (s, Option.none) => applyKwargs s kwargs
  | (s, some e) => (s, some e)

/-- Python list item assignment `xs[i] = w`: negative indices count from the
end; out-of-range indices are an `IndexError`. -/
def pyListSet (xs : List Value) (i : Int) (w : Value) : Option (List Value) :=
  let n : Int := xs.length
  let j := if i < 0 then i + n else i
  if 0 ≤ j ∧ j < n then some (xs.set j.toNat w) else Option.none

/-- `ListBase.__setitem__(self, index, val)` on a list value with element
type `elemType` and `_elems = elems`: the right-hand side
`_convert(self._elem_type, val)` is evaluated first, so a conversion
failure propagates before `self._elems` is touched. -/
def listSetitem (elemType : Ty) (elems : List Value) (i : Int) (v : Value) :
    List Value × Option Err :=
  match pyconvert elemType v with
  | .error e => (elems, some e)
  | .ok w =>
      match pyListSet elems i w with
      | some elems' => (elems', Option.none)
      | Option.none => (elems, some .indexError)

/-- `ListBase.append(self, val)`: the argument `_convert(self._elem_type,
val)` is evaluated before `list.append` runs, so a conversion failure
propagates before `self._elems` is touched. -/
def listAppend (elemType : Ty) (elems : List Value) (v : Value) :
    List Value × Option Err :=
  match pyconvert elemType v with
  | .error e => (elems, some e)
  | .ok w => (elems ++ [w], Option.none)

mutual

/-- Python 2 equality `a == b` on the modelled value universe.
Scalars compare by value; values of different built-in kinds are unequal
(CPython falls back to comparing type names).  List values — plain lists
and `ListBase` instances alike — compare elementwise (`ListBase.__cmp__ =
cmp(self._elems, other)`, so a typed list equals a plain list or any typed
list with equal elements, whatever the element type parameter); dict values
— plain dicts and `MapBase` instances (`MapBase.__cmp__ = cmp(self._map,
other)`) — compare as dicts: equal size and every key of the left dict
bound in the right dict to an equal value.  Two Struct instances compare
via `cmp(self._attrs, other._attrs)` (both `Struct.__cmp__` and
`LooseStruct.__cmp__` do this when the other operand is a Struct),
regardless of class, schema or strictness.  A Struct compared with a
non-Struct: `Struct.__cmp__` falls back to `id(self) - id(other)`, which is
nonzero for distinct objects, hence unequal; `LooseStruct.__cmp__` instead
evaluates `other._attrs` and raises `AttributeError` (also when the loose
record is the right operand, via the reflected `__cmp__` call).
Size checks come first (as in CPython's rich `==` for lists and dicts),
then elementwise comparison, whose first error propagates. -/
def pyEqV : Value → Value → Except Err Bool
  | .none, .none => .ok true
  | .int m, .int n => .ok (decide (m = n))
  | .str s, .str t => .ok (decide (s = t))
  | .pylist xs, .pylist ys =>
      if xs.length = ys.length then listPtEq xs ys else .ok false
  | .pylist xs, .vlist _ ys =>
      if xs.length = ys.length then listPtEq xs ys else .ok false
  | .vlist _ xs, .pylist ys =>
      if xs.length = ys.length then listPtEq xs ys else .ok false
  | .vlist _ xs, .vlist _ ys =>
      if xs.length = ys.length then listPtEq xs ys else .ok false
  | .pydict xs, .pydict ys =>
      if xs.length = ys.length then dictSubV xs ys else .ok false
  | .pydict xs, .vmap _ _ ys =>
      if xs.length = ys.length then dictSubV xs ys else .ok false
  | .vmap _ _ xs, .pydict ys =>
      if xs.length = ys.length then dictSubV xs ys else .ok false
  | .vmap _ _ xs, .vmap _ _ ys =>
      if xs.length = ys.length then dictSubV xs ys else .ok false
  | .vstruct _ _ a1, .vstruct _ _ a2 =>
      if a1.length = a2.length then dictSubS a1 a2 else .ok false
  | .vstruct true _ _, _ => .ok false
  | .vstruct false _ _, _ => .error (.attributeError "_attrs")
  | _, .vstruct true _ _ => .ok false
  | _, .vstruct false _ _ => .error (.attributeError "_attrs")
  | _, _ => .ok false
termination_by a b => sizeOf a + sizeOf b

/-- Elementwise equality scan of two equal-length lists; the first
element-comparison error propagates. -/
def listPtEq : List Value → List Value → Except Err Bool
  | x :: xs, y :: ys =>
      match pyEqV x y with
      | .error e => .error e
      | .ok true => listPtEq xs ys
      | .ok false => .ok false
  | _, _ => .ok true
termination_by xs ys => sizeOf xs + sizeOf ys

/-- Dict equality scan (after the size check): every entry of the left
dict must be bound in the right dict to an equal value. -/
def dictSubV : List (Value × Value) → List (Value × Value) → Except Err Bool
  | [], _ => .ok true
  | (k, v) :: rest, b =>
      match dFindV k v b with
      | .error e => .error e
      | .ok true => dictSubV rest b
      | .ok false => .ok false
termination_by a b => sizeOf a + sizeOf b

/-- Look key `k` up in the entry list by Python equality and compare the
bound value with `v`; `ok false` when the key is absent. -/
def dFindV (k v : Value) : List (Value × Value) → Except Err Bool
  | [] => .ok false
  | (k', w) :: rest =>
      match pyEqV k k' with
      | .error e => .error e
      | .ok true => pyEqV v w
      | .ok false => dFindV k v rest
termination_by bs => sizeOf k + sizeOf v + sizeOf bs

/-- Dict equality scan for the string-keyed `_attrs` dictionaries. -/
def dictSubS : List (String × Value) → List (String × Value) → Except Err Bool
  | [], _ => .ok true
  | (k, v) :: rest, b =>
      match dFindS k v b with
      | .error e => .error e
      | .ok true => dictSubS rest b
      | .ok false => .ok false
termination_by a b => sizeOf a + sizeOf b

/-- Look string key `k` up and compare the bound value with `v`. -/
def dFindS (k : String) (v : Value) : List (String × Value) → Except Err Bool
  | [] => .ok false
  | (k', w) :: rest =>
      if k' = k then pyEqV v w else dFindS k v rest
termination_by bs => sizeOf v + sizeOf bs

end

/-- Python dict lookup `m[k]` for value-keyed dicts: scan for a key equal
(by Python equality) to `k`; `ok Option.none` models the `KeyError` of a
missing key. -/
def dLookup (k : Value) : List (Value × Value) → Except Err (Option Value)
  | [] => .ok Option.none
  | (k', w) :: rest =>
      match pyEqV k k' with
      | .error e => .error e
      | .ok true => .ok (some w)
      | .ok false => dLookup k rest

/-- `MapBase.get(self, key, default=None)` on a map value with key type
`keyType`, value type `valType` and `_map = m`: coerce the lookup key, try
`self._map[...]`; on `KeyError` return `None` if the default is `None`,
otherwise coerce the default to the value type and return it (without
storing).  The first component of the result is the `_map` the object is
left with — the method executes no mutating statement on any path. -/
def mapGet (keyType valType : Ty) (m : List (Value × Value)) (k : Value)
    (default : Value) : List (Value × Value) × Except Err Value :=
  match pyconvert keyType k with
  | .error e => (m, .error e)
  | .ok k' =>
      match dLookup k' m with
      | .error e => (m, .error e)
      | .ok (some w) => (m, .ok w)
      | .ok Option.none =>
          match default with
          | .none => (m, .ok .none)
          | d =>
              match pyconvert valType d with
              | .ok w => (m, .ok w)
              | .error e => (m, .error e)

/-- Keys of the `_generic_cache` dict: the tuple `(ListBase, elem_type)` or
`(MapBase, key_type, value_type)`.  Type objects are identified by numeric
ids (tuple equality on type objects is identity). -/
inductive GKey : Type where
  | listK (elem : Nat) : GKey
  | mapK (key val : Nat) : GKey
deriving DecidableEq, Repr

/-- The process-wide `_generic_cache` together with an id supply: `entries`
maps cache keys to the ids of the constructed type objects, and `next` is
the id the next freshly constructed class will get (`type(...)` always
creates a brand-new object). -/
structure GCache : Type where
  entries : List (GKey × Nat)
  next : Nat
deriving Repr

/-- `List(elem_type)`: return the cached class for `(ListBase, elem_type)`,
or construct a fresh class, publish it in the cache and return it. -/
def ListType (c : GCache) (elemType : Nat) : Nat × GCache :=
  match dget (GKey.listK elemType) c.entries with
  | some t => (t, c)
  | Option.none =>
      (c.next, ⟨c.entries ++ [(GKey.listK elemType, c.next)], c.next + 1⟩)

/-- `Map(key_type, val_type)`: return the cached class for
`(MapBase, key_type, val_type)`, or construct, publish and return a fresh
class. -/
def MapType (c : GCache) (keyType valType : Nat) : Nat × GCache :=
  match dget (GKey.mapK keyType valType) c.entries with
  | some t => (t, c)
  | Option.none =>
      (c.next, ⟨c.entries ++ [(GKey.mapK keyType valType, c.next)], c.next + 1⟩)

/-- An arbitrary sequence of generic-type-factory calls (used to state that
a published cache entry survives later factory activity). -/
inductive GOp : Type where
  | lop (elem : Nat) : GOp
  | mop (key val : Nat) : GOp
deriving Repr

/-- Run a sequence of factory calls for their cache effect. -/
def runOps (c : GCache) : List GOp → GCache
  | [] => c
  | .lop e :: rest => runOps (ListType c e).2 rest
  | .mop k v :: rest => runOps (MapType c k v).2 rest

/-- `set_translation_data(struct, key, value)`.  `Struct._translation_data`
is a single dict created once in the class body of the `Struct` base class;
neither `make_struct` nor `_StructMetaclass` ever installs a separate
`_translation_data` on a subclass, so the attribute lookup
`struct._translation_data` resolves to that one shared dict for every
record type, and the assignment mutates it.  The `struct` argument
therefore selects nothing; keys and values are opaque (modelled as `Nat`).
-/
def set_translation_data (store : List (Nat × Nat)) (struct : Nat)
    (key : Nat) (value : Nat) : List (Nat × Nat) :=
  dset store key value

/-- `get_translation_data(struct, key)`: `struct._translation_data[key]`,
on the same shared dict; a missing key raises `KeyError`. -/
def get_translation_data (store : List (Nat × Nat)) (struct : Nat)
    (key : Nat) : Except Err Nat :=
  match dget key store with
  | some v => .ok v
  | Option.none => .error .keyError

/-- The intermediate representation produced by the simplejson / pyyaml
load functions: scalars (`None`, numbers, strings), lists, and dicts with
string keys.  The dict entry order models Python's (arbitrary but fixed)
dict iteration order. -/
inductive Inter : Type where
  | none : Inter
  | int (n : Int) : Inter
  | str (s : String) : Inter
  | list (elems : List Inter) : Inter
  | dict (entries : List (String × Inter)) : Inter
deriving Repr

mutual

/-- The injection of an intermediate object into the value universe (an
intermediate object is itself an ordinary Python value: scalars, plain
lists, plain dicts). -/
def interToValue : Inter → Value
  | .none => .none
  | .int n => .int n
  | .str s => .str s
  | .list es => .pylist (interListVal es)
  | .dict es => .pydict (interDictVal es)
termination_by i => sizeOf i

def interListVal : List Inter → List Value
  | [] => []
  | x :: xs => interToValue x :: interListVal xs
termination_by l => sizeOf l

def interDictVal : List (String × Inter) → List (Value × Value)
  | [] => []
  | (k, v) :: rest => (.str k, interToValue v) :: interDictVal rest
termination_by l => sizeOf l

end

/-- `\w`-character of the Python 2 `re` module without `re.UNICODE`:
`[a-zA-Z0-9_]`. -/
def isWordChar (c : Char) : Bool := c.isAlpha || c.isDigit || c = '_'

/-- A character list matching `[a-zA-Z]\w*` in full: a leading ASCII
letter followed by word characters. -/
def matchesCore : List Char → Bool
  | [] => false
  | c :: rest => c.isAlpha && rest.all isWordChar

/-- Truth of `ATTR_NAME_RX.match(key)` for `ATTR_NAME_RX =
re.compile(r'[a-zA-Z]\w*$')`: `re.match` anchors at the start, and `$`
matches at the end of the string or just before a final newline. -/
def ATTR_NAME_RX_match (s : String) : Bool :=
  matchesCore s.data ||
    (match s.data.getLast? with
     | some c => decide (c = '\n') && matchesCore s.data.dropLast
     | Option.none => false)

/-- The id standing for the `LooseStruct` class in the model. -/
def LOOSE_SID : Nat := 0

/-- `dict_to_struct(json_dict)` with `struct_type = None` and no
`convert_func`, as called from `intermediate_to_obj`'s inference branch:
construct a `LooseStruct()` (empty schema, so `_attrs` starts empty) and
run `setattr_with_convert_func(result, key, val, _convert)` for every
entry.  The schema lookup in that helper raises `KeyError` before the
convert function is ever applied, and the loose fallthrough stores the raw
value: `result._attrs[key] = val`. -/
def dict_to_struct (entries : List (String × Inter)) : Value :=
  .vstruct false LOOSE_SID
    (entries.foldl (fun attrs kv => dset attrs kv.1 (interToValue kv.2)) [])

mutual

/-- `intermediate_to_obj(intermediate)` with `confix_type = None` (type
inference mode).  Lists recurse elementwise (a nested failure propagates
out of the list comprehension).  For a non-empty dict, the code iterates
`for key in intermediate:` and returns from inside the first iteration: if
the first key fails `ATTR_NAME_RX` it builds a plain dict converting each
value, otherwise it immediately calls `dict_to_struct(intermediate)`.  An
empty dict executes no loop iteration, so control falls out of the
`if confix_type is None:` block and reaches
`issubclass(confix_type, Generic)` with `confix_type = None`, which raises
`TypeError` (`issubclass` requires a class).  Scalars are returned
unchanged. -/
def intermediate_to_obj : Inter → Except Err Value
  | .list elems =>
      match interObjList elems with
      | .error e => .error e
      | .ok ys => .ok (.pylist ys)
  | .dict [] => .error .typeError
  | .dict ((k0, v0) :: rest) =>
      if ! ATTR_NAME_RX_match k0 then
        match interObjDict ((k0, v0) :: rest) with
        | .error e => .error e
        | .ok entries => .ok (.pydict entries)
      else .ok (dict_to_struct ((k0, v0) :: rest))
  | .none => .ok .none
  | .int n => .ok (.int n)
  | .str s => .ok (.str s)
termination_by i => sizeOf i

def interObjList : List Inter → Except Err (List Value)
  | [] => .ok []
  | x :: xs =>
      match intermediate_to_obj x with
      | .error e => .error e
      | .ok y =>
          match interObjList xs with
          | .error e => .error e
          | .ok ys => .ok (y :: ys)
termination_by l => sizeOf l

def interObjDict : List (String × Inter) → Except Err (List (Value × Value))
  | [] => .ok []
  | (k, v) :: rest =>
      match intermediate_to_obj v with
      | .error e => .error e
      | .ok w =>
          match interObjDict rest with
          | .error e => .error e
          | .ok ws => .ok ((.str k, w) :: ws)
termination_by l => sizeOf l

end

/-! ## Claim theorems -/

/-- C1: the type-inference mode of `intermediate_to_obj` is claimed to send
a key/value mapping to a loose record iff **every** key matches the legal
field-name pattern, and otherwise to a plain mapping.  The code instead
returns from the first loop iteration, deciding from the first key alone,
and an empty mapping executes no iteration at all, falls through to
`issubclass(None, Generic)` and crashes with `TypeError`.  Evaluated at the
failing inputs: `{}` (where every key vacuously matches) raises `TypeError`
instead of producing a loose record, and `{'a': 1, '9bad': 2}` (iteration
meeting `'a'` first) yields a loose record even though `'9bad'` fails the
pattern; a mapping whose first key fails the pattern does become a plain
mapping, per the claim. -/
theorem c1_inference_decides_on_first_key_only :
    intermediate_to_obj (.dict []) = .error Err.typeError ∧
    ATTR_NAME_RX_match "9bad" = false ∧
    intermediate_to_obj (.dict [("a", .int 1), ("9bad", .int 2)]) =
      .ok (.vstruct false LOOSE_SID [("a", .int 1), ("9bad", .int 2)]) ∧
    intermediate_to_obj (.dict [("9bad", .int 2), ("a", .int 1)]) =
      .ok (.pydict [(.str "9bad", .int 2), (.str "a", .int 1)]) := by
  refine ⟨?_, by decide, ?_, ?_⟩
  · simp [intermediate_to_obj]
  · have ha : ATTR_NAME_RX_match "a" = true := by decide
    simp [intermediate_to_obj, ha, dict_to_struct, interToValue, dset]
  · have hb : ATTR_NAME_RX_match "9bad" = false := by decide
    simp [intermediate_to_obj, hb, interObjDict]

/-- C3: the translation side-table is claimed to be per-record-type, with
`getTranslationData(B, k)` failing with KeyNotFoundError when nothing was
stored under `k` on `B`.  Because `_translation_data` is one dict on the
`Struct` base class shared by every record type, storing under key `5` on
record type `0` makes the lookup on the distinct record type `1` (on which
nothing was ever stored) return the value instead of failing; the lookup
fails only while nothing is stored under the key anywhere. -/
theorem c3_translation_table_shared_across_types :
    get_translation_data (set_translation_data [] 0 5 7) 1 5 = .ok 7 ∧
    get_translation_data [] 1 5 = .error .keyError := by
  exact ⟨rfl, rfl⟩

theorem dget_append_none {κ α : Type} [DecidableEq κ] (l l' : List (κ × α)) (k : κ)
    (h : dget k l = Option.none) : dget k (l ++ l') = dget k l' := by
  induction l with
  | nil => simp
  | cons p rest ih =>
      obtain ⟨k0, w⟩ := p
      by_cases h0 : k0 = k <;> simp_all [dget]

theorem ListType_publishes (c : GCache) (e : Nat) :
    dget (GKey.listK e) ((ListType c e).2).entries = some (ListType c e).1 := by
  unfold ListType
  cases h : dget (GKey.listK e) c.entries with
  | some t => simp [h]
  | none => simp [h, dget_append_none _ _ _ h, dget]

theorem MapType_publishes (c : GCache) (k v : Nat) :
    dget (GKey.mapK k v) ((MapType c k v).2).entries = some (MapType c k v).1 := by
  unfold MapType
  cases h : dget (GKey.mapK k v) c.entries with
  | some t => simp [h]
  | none => simp [h, dget_append_none _ _ _ h, dget]

theorem ListType_hit (c : GCache) (e : Nat) (t : Nat)
    (h : dget (GKey.listK e) c.entries = some t) : ListType c e = (t, c) := by
  simp [ListType, h]

theorem MapType_hit (c : GCache) (k v : Nat) (t : Nat)
    (h : dget (GKey.mapK k v) c.entries = some t) : MapType c k v = (t, c) := by
  simp [MapType, h]

theorem ListType_preserves (c : GCache) (e : Nat) (k : GKey) (t : Nat)
    (h : dget k c.entries = some t) :
    dget k ((ListType c e).2).entries = some t := by
  unfold ListType
  cases h2 : dget (GKey.listK e) c.entries with
  | some t' => simpa [h2] using h
  | none => simpa [h2] using dget_append_left _ _ _ _ h

theorem MapType_preserves (c : GCache) (kt vt : Nat) (k : GKey) (t : Nat)
    (h : dget k c.entries = some t) :
    dget k ((MapType c kt vt).2).entries = some t := by
  unfold MapType
  cases h2 : dget (GKey.mapK kt vt) c.entries with
  | some t' => simpa [h2] using h
  | none => simpa [h2] using dget_append_left _ _ _ _ h

theorem runOps_preserves (ops : List GOp) : ∀ (c : GCache) (k : GKey) (t : Nat),
    dget k c.entries = some t → dget k (runOps c ops).entries = some t := by
  induction ops with
  | nil => intro c k t h; exact h
  | cons op rest ih =>
      intro c k t h
      cases op with
      | lop e => exact ih _ _ _ (ListType_preserves c e k t h)
      | mop kt vt => exact ih _ _ _ (MapType_preserves c kt vt k t h)

/-- C4: `List(elem_type)` and `Map(key_type, value_type)` are memoized pure
functions of their parameters: once a parameterization has been
constructed, any later call with the same parameters — also after
arbitrary interleaved factory calls — returns the identical type object,
and a repeated nested construction `Map(str, List(int))` yields the same
inner and the same outer type object as the first. -/
theorem c4_generic_type_factory_memoizes :
    ∀ (c : GCache) (e kt vt : Nat) (ops : List GOp),
      (ListType (runOps ((ListType c e).2) ops) e).1 = (ListType c e).1 ∧
      (MapType (runOps ((MapType c kt vt).2) ops) kt vt).1 = (MapType c kt vt).1 ∧
      ((ListType ((MapType ((ListType c e).2) kt ((ListType c e).1)).2) e).1 =
          (ListType c e).1 ∧
        (MapType
            ((ListType ((MapType ((ListType c e).2) kt ((ListType c e).1)).2) e).2)
            kt
            ((ListType ((MapType ((ListType c e).2) kt ((ListType c e).1)).2) e).1)).1 =
          (MapType ((ListType c e).2) kt ((ListType c e).1)).1) := by
  intro c e kt vt ops
  have hl : ∀ c' : GCache, ∀ ops' : List GOp,
      dget (GKey.listK e) c'.entries = some (ListType c e).1 →
      ListType (runOps c' ops') e = ((ListType c e).1, runOps c' ops') :=
    fun c' ops' h => ListType_hit _ _ _ (runOps_preserves ops' c' _ _ h)
  refine ⟨?_, ?_, ?_, ?_⟩
  · rw [hl _ ops (ListType_publishes c e)]
  · have hm := runOps_preserves ops ((MapType c kt vt).2) _ _ (MapType_publishes c kt vt)
    rw [MapType_hit _ _ _ _ hm]
  · have h1 : dget (GKey.listK e) ((MapType ((ListType c e).2) kt ((ListType c e).1)).2).entries =
        some (ListType c e).1 :=
      MapType_preserves _ _ _ _ _ (ListType_publishes c e)
    rw [ListType_hit _ _ _ h1]
  · have h1 : dget (GKey.listK e) ((MapType ((ListType c e).2) kt ((ListType c e).1)).2).entries =
        some (ListType c e).1 :=
      MapType_preserves _ _ _ _ _ (ListType_publishes c e)
    rw [ListType_hit _ _ _ h1]
    rw [MapType_hit _ _ _ _ (MapType_publishes ((ListType c e).2) kt ((ListType c e).1))]

theorem dFindS_ok_true_iff (k : String) (v : Value) :
    ∀ (b : List (String × Value)),
      dFindS k v b = .ok true ↔
        ∃ w, dget k b = some w ∧ pyEqV v w = .ok true := by
  intro b
  induction b with
  | nil => simp [dFindS, dget]
  | cons p rest ih =>
      obtain ⟨k', w⟩ := p
      by_cases h : k' = k
      · subst h
        simp [dFindS, dget]
      · simp [dFindS, dget, h, ih]

theorem dictSubS_ok_true_iff :
    ∀ (a b : List (String × Value)),
      dictSubS a b = .ok true ↔ ∀ p ∈ a, dFindS p.1 p.2 b = .ok true := by
  intro a b
  induction a with
  | nil => simp [dictSubS]
  | cons p rest ih =>
      obtain ⟨k, v⟩ := p
      simp only [dictSubS, List.mem_cons]
      cases h : dFindS k v b with
      | error e =>
          simp only [h]
          constructor
          · intro hfalse; exact absurd hfalse (by simp)
          · intro hall
            have := hall (k, v) (Or.inl rfl)
            rw [h] at this
            exact absurd this (by simp)
      | ok bv =>
          cases bv with
          | true =>
              simp only [h, ih]
              constructor
              · intro hrest p hp
                rcases hp with rfl | hp
                · exact h
                · exact hrest p hp
              · intro hall p hp
                exact hall p (Or.inr hp)
          | false =>
              simp only [h]
              constructor
              · intro hfalse; exact absurd hfalse (by simp)
              · intro hall
                have := hall (k, v) (Or.inl rfl)
                rw [h] at this
                exact absurd this (by simp)

/-- The comparison of two Struct instances, written out: `cmp(self._attrs,
other._attrs)`, with the dict size check first. -/
theorem pyEqV_struct_struct (b1 b2 : Bool) (i1 i2 : Nat)
    (a1 a2 : List (String × Value)) :
    pyEqV (.vstruct b1 i1 a1) (.vstruct b2 i2 a2) =
      if a1.length = a2.length then dictSubS a1 a2 else .ok false := by
  cases b1 <;> cases b2 <;> simp [pyEqV]

/-- C2 (counterexample): two *strict* record instances of visibly different
record types (class ids 1 and 2, hence different schemas) with equal
attribute maps compare equal — `Struct.__cmp__` compares `self._attrs` with
`other._attrs` for any Struct operand and never consults the schema — so
"strict records compare equal only when they share the same schema" fails.
-/
theorem c2_counterexample :
    (1 : Nat) ≠ 2 ∧
    pyEqV (.vstruct true 1 [("x", .int 1)]) (.vstruct true 2 [("x", .int 1)]) =
      .ok true := by
  refine ⟨by decide, ?_⟩
  simp [pyEqV, dictSubS, dFindS]

/-- C2 (amended): two record instances — strict or loose, of the same or of
different record types — compare equal exactly when their attribute maps
are equal as dictionaries: same size, and every attribute of the one is
present in the other with a Python-equal value.  Neither the strict/loose
kind nor the schema (class identity) plays any role. -/
theorem c2_struct_equality_is_attr_map_equality :
    ∀ (b1 b2 : Bool) (i1 i2 : Nat) (a1 a2 : List (String × Value)),
      pyEqV (.vstruct b1 i1 a1) (.vstruct b2 i2 a2) = .ok true ↔
        (a1.length = a2.length ∧
          ∀ p ∈ a1, ∃ w, dget p.1 a2 = some w ∧ pyEqV p.2 w = .ok true) := by
  intro b1 b2 i1 i2 a1 a2
  rw [pyEqV_struct_struct]
  by_cases h : a1.length = a2.length
  · rw [if_pos h, dictSubS_ok_true_iff]
    constructor
    · intro hall
      exact ⟨h, fun p hp => (dFindS_ok_true_iff p.1 p.2 a2).1 (hall p hp)⟩
    · rintro ⟨h1, hall⟩ p hp
      exact (dFindS_ok_true_iff p.1 p.2 a2).2 (hall p hp)
  · rw [if_neg h]
    simp [h]

/-- C2 (witness): evaluating the amended equivalence at concrete instances:
a strict and a loose record with equal attribute maps compare equal. -/
theorem c2_struct_equality_witness :
    pyEqV (.vstruct true 1 [("a", .int 7)]) (.vstruct false 9 [("a", .int 7)]) =
      .ok true := by
  refine (c2_struct_equality_is_attr_map_equality true false 1 9
    [("a", .int 7)] [("a", .int 7)]).2 ⟨rfl, ?_⟩
  intro p hp
  simp only [List.mem_singleton] at hp
  subst hp
  exact ⟨.int 7, rfl, by simp [pyEqV]⟩

/-- `v` is a Struct instance. -/
def isStructVal : Value → Bool
  | .vstruct _ _ _ => true
  | _ => false

/-- C9 (counterexample): comparing a *loose* record with a plain mapping
does not fall back to object identity and does not report inequality —
`LooseStruct.__cmp__` evaluates `other._attrs`, which a plain dict lacks,
so the comparison raises `AttributeError` instead. -/
theorem c9_counterexample :
    pyEqV (.vstruct false 0 []) (.pydict []) = .error (.attributeError "_attrs") ∧
    pyEqV (.vstruct false 0 []) (.pydict []) ≠ .ok false := by
  have h : pyEqV (.vstruct false 0 []) (.pydict []) =
      .error (.attributeError "_attrs") := by
    simp [pyEqV]
  exact ⟨h, by rw [h]; simp⟩

/-- C9 (amended): a *strict* record instance never compares equal to a
non-record value — `Struct.__cmp__` falls back to `id(self) - id(other)`,
nonzero for the necessarily distinct objects — including a plain mapping
with the same keys and values; a *loose* record compared with a non-record
instead raises `AttributeError` when evaluating `other._attrs` (so it never
reports equality either, but by an exception, not by identity). -/
theorem c9_record_vs_nonrecord :
    ∀ (sid : Nat) (attrs : List (String × Value)) (x : Value),
      isStructVal x = false →
      pyEqV (.vstruct true sid attrs) x = .ok false ∧
      pyEqV (.vstruct false sid attrs) x = .error (.attributeError "_attrs") := by
  intro sid attrs x hx
  cases x <;> simp_all [pyEqV, isStructVal]

/-- C9 (witness): a strict record is unequal to the plain dict carrying the
very same key/value content, and a loose record raises on it. -/
theorem c9_record_vs_nonrecord_witness :
    pyEqV (.vstruct true 3 [("a", .int 1)]) (.pydict [(.str "a", .int 1)]) =
      .ok false ∧
    pyEqV (.vstruct false 3 [("a", .int 1)]) (.pydict [(.str "a", .int 1)]) =
      .error (.attributeError "_attrs") :=
  c9_record_vs_nonrecord 3 [("a", .int 1)] (.pydict [(.str "a", .int 1)]) rfl

/-- C5: the write path `set(attr, value)`: a schema'd attribute stores the
converted value (readable back), a failed conversion raises the TypeKind
error (`TypeError`), an unknown attribute raises UnknownFieldError
(`AttributeError`) on a strict record, and on a loose record is stored raw
with no type enforcement and is readable afterward. -/
theorem c5_setattr_policy :
    ∀ (s : StructState) (attr : String) (v : Value),
      (∀ fd w, dget attr s.schema = some fd → pyconvert fd.type v = .ok w →
        structSetattr s attr v =
          ({ s with attrs := dset s.attrs attr w }, Option.none) ∧
        structGetattr { s with attrs := dset s.attrs attr w } attr = .ok w) ∧
      (∀ fd e, dget attr s.schema = some fd → pyconvert fd.type v = .error e →
        structSetattr s attr v = (s, some Err.typeError)) ∧
      (dget attr s.schema = Option.none → s.strict = true →
        structSetattr s attr v = (s, some (Err.attributeError attr))) ∧
      (dget attr s.schema = Option.none → s.strict = false →
        structSetattr s attr v =
          ({ s with attrs := dset s.attrs attr v }, Option.none) ∧
        structGetattr { s with attrs := dset s.attrs attr v } attr = .ok v) := by
  intro s attr v
  refine ⟨?_, ?_, ?_, ?_⟩
  · intro fd w h1 h2
    refine ⟨by simp [structSetattr, h1, h2], ?_⟩
    simp [structGetattr, dget_dset_self]
  · intro fd e h1 h2
    have he := pyconvert_error fd.type v e h2
    subst he
    simp [structSetattr, h1, h2]
  · intro h1 h2
    simp [structSetattr, h1, h2]
  · intro h1 h2
    refine ⟨by simp [structSetattr, h1, h2], ?_⟩
    simp [structGetattr, dget_dset_self]

/-- C5 (witness): on a strict record with one int field `a`: a well-typed
write to `a` stores the converted value and reads back; a `str` write to
`a` fails with `TypeError` leaving the record unchanged; a write to the
undeclared `b` fails with `AttributeError`; on a loose record the
undeclared write succeeds, stores the raw value and reads back. -/
theorem c5_setattr_policy_witness :
    (structSetattr ⟨true, [("a", ⟨.intT, .noDefault⟩)], []⟩ "a" (.int 5) =
        (⟨true, [("a", ⟨.intT, .noDefault⟩)], [("a", .int 5)]⟩, Option.none) ∧
      structGetattr ⟨true, [("a", ⟨.intT, .noDefault⟩)], [("a", .int 5)]⟩ "a" =
        .ok (.int 5)) ∧
    structSetattr ⟨true, [("a", ⟨.intT, .noDefault⟩)], []⟩ "a" (.str "x") =
      (⟨true, [("a", ⟨.intT, .noDefault⟩)], []⟩, some Err.typeError) ∧
    structSetattr ⟨true, [("a", ⟨.intT, .noDefault⟩)], []⟩ "b" (.int 5) =
      (⟨true, [("a", ⟨.intT, .noDefault⟩)], []⟩, some (Err.attributeError "b")) ∧
    (structSetattr ⟨false, [], []⟩ "x" (.str "y") =
        (⟨false, [], [("x", .str "y")]⟩, Option.none) ∧
      structGetattr ⟨false, [], [("x", .str "y")]⟩ "x" = .ok (.str "y")) := by
  refine ⟨?_, ?_, ?_, ?_⟩
  · exact (c5_setattr_policy ⟨true, [("a", ⟨.intT, .noDefault⟩)], []⟩ "a"
      (.int 5)).1 ⟨.intT, .noDefault⟩ (.int 5) rfl rfl
  · exact (c5_setattr_policy ⟨true, [("a", ⟨.intT, .noDefault⟩)], []⟩ "a"
      (.str "x")).2.1 ⟨.intT, .noDefault⟩ .typeError rfl rfl
  · exact (c5_setattr_policy ⟨true, [("a", ⟨.intT, .noDefault⟩)], []⟩ "b"
      (.int 5)).2.2.1 rfl rfl
  · exact (c5_setattr_policy ⟨false, [], []⟩ "x" (.str "y")).2.2.2 rfl rfl

/-- C6: every write that fails type coercion is atomic.  A record-field
assignment whose conversion fails raises the TypeKind error with `_attrs`
untouched (the raise happens before the store statement), and an indexed
list write or append whose element coercion fails raises the TypeKind
error with `_elems` untouched (the conversion is evaluated before the
container is accessed). -/
theorem c6_failed_coercion_atomic :
    ∀ (s : StructState) (attr : String) (fd : FieldDef) (v : Value) (e : Err)
      (t : Ty) (elems : List Value) (i : Int) (w : Value) (e' : Err),
      (dget attr s.schema = some fd → pyconvert fd.type v = .error e →
        structSetattr s attr v = (s, some Err.typeError)) ∧
      (pyconvert t w = .error e' →
        listSetitem t elems i w = (elems, some Err.typeError) ∧
        listAppend t elems w = (elems, some Err.typeError)) := by
  intro s attr fd v e t elems i w e'
  constructor
  · intro h1 h2
    have he := pyconvert_error fd.type v e h2
    subst he
    simp [structSetattr, h1, h2]
  · intro h
    have he := pyconvert_error t w e' h
    subst he
    exact ⟨by simp [listSetitem, h], by simp [listAppend, h]⟩

/-- C6 (witness): with prior state `a = 1` on the record and `[0]` in an
int list, the failing writes `set(a, 'bad')`, `l[0] = 'bad'` and
`l.append('bad')` all raise `TypeError` and leave the prior state intact.
-/
theorem c6_failed_coercion_atomic_witness :
    structSetattr ⟨true, [("a", ⟨.intT, .noDefault⟩)], [("a", .int 1)]⟩ "a"
        (.str "bad") =
      (⟨true, [("a", ⟨.intT, .noDefault⟩)], [("a", .int 1)]⟩, some Err.typeError) ∧
    listSetitem .intT [.int 0] 0 (.str "bad") = ([.int 0], some Err.typeError) ∧
    listAppend .intT [.int 0] (.str "bad") = ([.int 0], some Err.typeError) := by
  have h := c6_failed_coercion_atomic
    ⟨true, [("a", ⟨.intT, .noDefault⟩)], [("a", .int 1)]⟩ "a"
    ⟨.intT, .noDefault⟩ (.str "bad") .typeError
    .intT [.int 0] 0 (.str "bad") .typeError
  exact ⟨h.1 rfl rfl, (h.2 rfl).1, (h.2 rfl).2⟩

theorem dget_eq_none_of_not_mem {κ α : Type} [DecidableEq κ] (k : κ)
    (l : List (κ × α)) (h : k ∉ l.map Prod.fst) : dget k l = Option.none := by
  induction l with
  | nil => rfl
  | cons p rest ih =>
      obtain ⟨k0, w⟩ := p
      simp only [List.map_cons, List.mem_cons] at h
      push_neg at h
      simp [dget, Ne.symm h.1, ih h.2]

theorem dget_of_mem_nodup {κ α : Type} [DecidableEq κ] (l : List (κ × α)) (p : κ × α)
    (hn : (l.map Prod.fst).Nodup) (hp : p ∈ l) : dget p.1 l = some p.2 := by
  induction l with
  | nil => cases hp
  | cons q rest ih =>
      obtain ⟨k0, w⟩ := q
      simp only [List.map_cons, List.nodup_cons] at hn
      rcases List.mem_cons.1 hp with rfl | hp'
      · simp [dget]
      · have hne : k0 ≠ p.1 := by
          intro hc
          exact hn.1 (hc ▸ (List.mem_map.2 ⟨p, hp', rfl⟩))
        simp [dget, hne, ih hn.2 hp']

/-- The value a successful `Struct.__setattr__(attr, v)` stores on a record
of the given schema and strictness (converted for schema'd attributes, raw
for loose writes); `Option.none` when the write raises. -/
def setattrOutcome (schema : List (String × FieldDef)) (strict : Bool)
    (attr : String) (v : Value) : Option Value :=
  match dget attr schema with
  | some fd =>
      match pyconvert fd.type v with
      | .ok w => some w
      | .error _ => Option.none
  | Option.none => if strict then Option.none else some v

theorem structSetattr_outcome (s : StructState) (attr : String) (v w : Value)
    (h : setattrOutcome s.schema s.strict attr v = some w) :
    structSetattr s attr v =
      ({ s with attrs := dset s.attrs attr w }, Option.none) := by
  cases h1 : dget attr s.schema with
  | some fd =>
      cases h2 : pyconvert fd.type v with
      | ok w' =>
          have hww : w' = w := by simpa [setattrOutcome, h1, h2] using h
          subst hww
          simp [structSetattr, h1, h2]
      | error e => exact absurd h (by simp [setattrOutcome, h1, h2])
  | none =>
      cases hs : s.strict with
      | true => exact absurd h (by simp [setattrOutcome, h1, hs])
      | false =>
          have hvw : v = w := by simpa [setattrOutcome, h1, hs] using h
          subst hvw
          simp [structSetattr, h1, hs]

theorem applyKwargs_spec :
    ∀ (kw : List (String × Value)) (s : StructState),
      (kw.map Prod.fst).Nodup →
      (∀ p ∈ kw, ∃ w, setattrOutcome s.schema s.strict p.1 p.2 = some w) →
      ∃ s', applyKwargs s kw = (s', Option.none) ∧
        s'.schema = s.schema ∧ s'.strict = s.strict ∧
        ∀ k, dget k s'.attrs =
          (match dget k kw with
           | some v => setattrOutcome s.schema s.strict k v
           | Option.none => dget k s.attrs) := by
  intro kw
  induction kw with
  | nil =>
      intro s _ _
      exact ⟨s, rfl, rfl, rfl, fun k => by simp [dget]⟩
  | cons p rest ih =>
      obtain ⟨a, v⟩ := p
      intro s hn hok
      obtain ⟨w, hw⟩ := hok (a, v) (List.mem_cons_self _ _)
      have hset := structSetattr_outcome s a v w hw
      have hnotmem : a ∉ rest.map Prod.fst := by
        simp only [List.map_cons, List.nodup_cons] at hn
        exact hn.1
      have hn' : (rest.map Prod.fst).Nodup := by
        simp only [List.map_cons, List.nodup_cons] at hn
        exact hn.2
      have hok' : ∀ q ∈ rest,
          ∃ w', setattrOutcome ({ s with attrs := dset s.attrs a w } : StructState).schema
            ({ s with attrs := dset s.attrs a w } : StructState).strict q.1 q.2 = some w' := by
        intro q hq
        exact hok q (List.mem_cons_of_mem _ hq)
      obtain ⟨s', h1, h2, h3, h4⟩ := ih { s with attrs := dset s.attrs a w } hn' hok'
      refine ⟨s', ?_, by simpa using h2, by simpa using h3, ?_⟩
      · simp only [applyKwargs, hset, h1]
      · intro k
        by_cases hk : a = k
        · subst hk
          have hr : dget a rest = Option.none := dget_eq_none_of_not_mem _ _ hnotmem
          rw [h4 a]
          simp [dget, hr, dget_dset_self, hw]
        · rw [h4 k]
          cases hr : dget k rest with
          | some v' => simp [dget, hk, hr]
          | none =>
              simp [dget, hk, hr, dget_dset_other s.attrs a k w fun hc => hk hc.symm]

theorem applyDefaults_spec :
    ∀ (l : List (String × FieldDef)) (s : StructState),
      (l.map Prod.fst).Nodup →
      (∀ p ∈ l, dget p.1 s.schema = some p.2) →
      (∀ p ∈ l, ∀ d, p.2.default = .val d → isinst d p.2.type = true) →
      ∃ s', applyDefaults s l = (s', Option.none) ∧
        s'.schema = s.schema ∧ s'.strict = s.strict ∧
        ∀ k, dget k s'.attrs =
          (match dget k l with
           | some fd =>
               (match fd.default with
                | .val d => some d
                | _ => dget k s.attrs)
           | Option.none => dget k s.attrs) := by
  intro l
  induction l with
  | nil =>
      intro s _ _ _
      exact ⟨s, rfl, rfl, rfl, fun k => by simp [dget]⟩
  | cons p rest ih =>
      obtain ⟨a, fd⟩ := p
      intro s hn hsch hdef
      have hnotmem : a ∉ rest.map Prod.fst := by
        simp only [List.map_cons, List.nodup_cons] at hn
        exact hn.1
      have hn' : (rest.map Prod.fst).Nodup := by
        simp only [List.map_cons, List.nodup_cons] at hn
        exact hn.2
      cases hd : fd.default with
      | val d =>
          have hconv : pyconvert fd.type d = .ok d :=
            pyconvert_of_isinst _ _ (hdef (a, fd) (List.mem_cons_self _ _) d hd)
          have hset : structSetattr s a d =
              ({ s with attrs := dset s.attrs a d }, Option.none) := by
            simp [structSetattr, hsch (a, fd) (List.mem_cons_self _ _), hconv]
          have hsch' : ∀ q ∈ rest,
              dget q.1 ({ s with attrs := dset s.attrs a d } : StructState).schema =
                some q.2 := by
            intro q hq
            exact hsch q (List.mem_cons_of_mem _ hq)
          have hdef' : ∀ q ∈ rest, ∀ d', q.2.default = .val d' →
              isinst d' q.2.type = true := by
            intro q hq
            exact hdef q (List.mem_cons_of_mem _ hq)
          obtain ⟨s', h1, h2, h3, h4⟩ :=
            ih { s with attrs := dset s.attrs a d } hn' hsch' hdef'
          refine ⟨s', ?_, by simpa using h2, by simpa using h3, ?_⟩
          · simp only [applyDefaults, hd, hset, h1]
          · intro k
            by_cases hk : a = k
            · subst hk
              have hr : dget a rest = Option.none := dget_eq_none_of_not_mem _ _ hnotmem
              rw [h4 a]
              simp [dget, hr, hd, dget_dset_self]
            · rw [h4 k]
              cases hr : dget k rest with
              | some fd' =>
                  cases hdflt : fd'.default <;>
                    simp [dget, hk, hr, hdflt,
                      dget_dset_other s.attrs a k d fun hc => hk hc.symm]
              | none =>
                  simp [dget, hk, hr,
                    dget_dset_other s.attrs a k d fun hc => hk hc.symm]
      | noDefault =>
          obtain ⟨s', h1, h2, h3, h4⟩ := ih s hn'
            (fun q hq => hsch q (List.mem_cons_of_mem _ hq))
            (fun q hq => hdef q (List.mem_cons_of_mem _ hq))
          refine ⟨s', ?_, h2, h3, ?_⟩
          · simp only [applyDefaults, hd, h1]
          · intro k
            by_cases hk : a = k
            · subst hk
              have hr : dget a rest = Option.none := dget_eq_none_of_not_mem _ _ hnotmem
              rw [h4 a]
              simp [dget, hr, hd]
            · rw [h4 k]
              simp [dget, hk]
      | undefined =>
          obtain ⟨s', h1, h2, h3, h4⟩ := ih s hn'
            (fun q hq => hsch q (List.mem_cons_of_mem _ hq))
            (fun q hq => hdef q (List.mem_cons_of_mem _ hq))
          refine ⟨s', ?_, h2, h3, ?_⟩
          · simp only [applyDefaults, hd, h1]
          · intro k
            by_cases hk : a = k
            · subst hk
              have hr : dget a rest = Option.none := dget_eq_none_of_not_mem _ _ hnotmem
              rw [h4 a]
              simp [dget, hr, hd]
            · rw [h4 k]
              simp [dget, hk]

theorem structInit_spec (strict : Bool) (sch : List (String × FieldDef))
    (kw : List (String × Value))
    (hnsch : (sch.map Prod.fst).Nodup)
    (hnkw : (kw.map Prod.fst).Nodup)
    (hdef : ∀ p ∈ sch, ∀ d, p.2.default = .val d → isinst d p.2.type = true)
    (hkw : ∀ p ∈ kw, ∃ w, setattrOutcome sch strict p.1 p.2 = some w) :
    ∃ st, structInit strict sch kw = (st, Option.none) ∧
      st.schema = sch ∧ st.strict = strict ∧
      ∀ k, dget k st.attrs =
        (match dget k kw with
         | some v => setattrOutcome sch strict k v
         | Option.none =>
             match dget k sch with
             | some fd =>
                 (match fd.default with
                  | .val d => some d
                  | _ => Option.none)
             | Option.none => Option.none) := by
  obtain ⟨s1, h1, h2, h3, h4⟩ := applyDefaults_spec sch ⟨strict, sch, []⟩ hnsch
    (fun p hp => dget_of_mem_nodup sch p hnsch hp) hdef
  have hkw1 : ∀ p ∈ kw, ∃ w, setattrOutcome s1.schema s1.strict p.1 p.2 = some w := by
    intro p hp
    rw [h2, h3]
    exact hkw p hp
  obtain ⟨st, g1, g2, g3, g4⟩ := applyKwargs_spec kw s1 hnkw hkw1
  refine ⟨st, ?_, by rw [g2, h2], by rw [g3, h3], ?_⟩
  · simp only [structInit, h1, g1]
  · intro k
    rw [g4 k, h2, h3]
    cases hkk : dget k kw with
    | some v => simp
    | none =>
        simp only
        rw [h4 k]
        cases hks : dget k sch with
        | some fd => cases fd.default <;> simp [dget]
        | none => simp [dget]

/-- C7: `new(schema, kwargs)` populates every concrete-defaulted field
(skipping `NoDefault` and `Undefined` fields) and then applies the kwargs
through the attribute-set path: afterwards every field supplied in kwargs
reads back the supplied (possibly coerced) value — the value
`__setattr__` stores for it — and every concrete-defaulted field not
supplied in kwargs reads back exactly its declared default. -/
theorem c7_construction_defaults_then_kwargs :
    ∀ (strict : Bool) (sch : List (String × FieldDef)) (kw : List (String × Value)),
      (sch.map Prod.fst).Nodup →
      (kw.map Prod.fst).Nodup →
      (∀ p ∈ sch, ∀ d, p.2.default = .val d → isinst d p.2.type = true) →
      (∀ p ∈ kw, ∃ w, setattrOutcome sch strict p.1 p.2 = some w) →
      ∃ st, structInit strict sch kw = (st, Option.none) ∧
        (∀ p ∈ kw, ∀ w, setattrOutcome sch strict p.1 p.2 = some w →
          structGetattr st p.1 = .ok w) ∧
        (∀ p ∈ sch, ∀ d, p.2.default = .val d → dget p.1 kw = Option.none →
          structGetattr st p.1 = .ok d) := by
  intro strict sch kw hnsch hnkw hdef hkw
  obtain ⟨st, h1, _, _, h4⟩ := structInit_spec strict sch kw hnsch hnkw hdef hkw
  refine ⟨st, h1, ?_, ?_⟩
  · intro p hp w hw
    have hmem : dget p.1 kw = some p.2 := dget_of_mem_nodup kw p hnkw hp
    have := h4 p.1
    rw [hmem] at this
    simp only at this
    rw [hw] at this
    simp [structGetattr, this]
  · intro p hp d hd hnone
    have hmem : dget p.1 sch = some p.2 := dget_of_mem_nodup sch p hnsch hp
    have := h4 p.1
    rw [hnone] at this
    simp only at this
    rw [hmem] at this
    simp only [hd] at this
    simp [structGetattr, this]

/-- C7 (witness): schema `{a : int = 100, b : str = "dv", u : int
optional}` constructed with `{a: 1}` succeeds; `a` reads back the supplied
`1`, and `b` reads back its declared default `"dv"`. -/
theorem c7_construction_witness :
    ∃ st, structInit true
        [("a", ⟨.intT, .val (.int 100)⟩), ("b", ⟨.strT, .val (.str "dv")⟩),
          ("u", ⟨.intT, .undefined⟩)]
        [("a", .int 1)] = (st, Option.none) ∧
      structGetattr st "a" = .ok (.int 1) ∧
      structGetattr st "b" = .ok (.str "dv") := by
  obtain ⟨st, h1, h2, h3⟩ := c7_construction_defaults_then_kwargs true
    [("a", ⟨.intT, .val (.int 100)⟩), ("b", ⟨.strT, .val (.str "dv")⟩),
      ("u", ⟨.intT, .undefined⟩)]
    [("a", .int 1)]
    (by decide) (by decide)
    (by
      intro p hp d hd
      fin_cases hp
      · cases hd; rfl
      · cases hd; rfl
      · cases hd)
    (by
      intro p hp
      fin_cases hp
      exact ⟨.int 1, rfl⟩)
  exact ⟨st, h1,
    h2 ("a", .int 1) (by simp) (.int 1) rfl,
    h3 ("b", ⟨.strT, .val (.str "dv")⟩) (by simp) (.str "dv") rfl rfl⟩

/-- C8: a required (`NoDefault`) field neither blocks construction — the
default loop skips it and nothing scans for missing required fields — nor
is it set by defaults or (absent from kwargs) by the kwargs loop, so a
later read of it fails with MissingFieldError (`AttributeError`). -/
theorem c8_required_field_read_fails_lazily :
    ∀ (strict : Bool) (sch : List (String × FieldDef)) (kw : List (String × Value))
      (f : String) (fd : FieldDef),
      (sch.map Prod.fst).Nodup →
      (kw.map Prod.fst).Nodup →
      (∀ p ∈ sch, ∀ d, p.2.default = .val d → isinst d p.2.type = true) →
      (∀ p ∈ kw, ∃ w, setattrOutcome sch strict p.1 p.2 = some w) →
      dget f sch = some fd → fd.default = .noDefault → dget f kw = Option.none →
      ∃ st, structInit strict sch kw = (st, Option.none) ∧
        structGetattr st f = .error (.attributeError f) := by
  intro strict sch kw f fd hnsch hnkw hdef hkw hf hnodefault hnone
  obtain ⟨st, h1, _, _, h4⟩ := structInit_spec strict sch kw hnsch hnkw hdef hkw
  refine ⟨st, h1, ?_⟩
  have := h4 f
  rw [hnone] at this
  simp only at this
  rw [hf] at this
  simp only [hnodefault] at this
  simp [structGetattr, this]

/-- C8 (witness): a schema with required `r` and defaulted `a`, constructed
with no kwargs at all: construction succeeds, and reading `r` afterwards
fails with `AttributeError('r')`. -/
theorem c8_required_field_witness :
    ∃ st, structInit true
        [("r", ⟨.intT, .noDefault⟩), ("a", ⟨.intT, .val (.int 100)⟩)] [] =
        (st, Option.none) ∧
      structGetattr st "r" = .error (.attributeError "r") := by
  exact c8_required_field_read_fails_lazily true
    [("r", ⟨.intT, .noDefault⟩), ("a", ⟨.intT, .val (.int 100)⟩)] []
    "r" ⟨.intT, .noDefault⟩
    (by decide) (by decide)
    (by
      intro p hp d hd
      fin_cases hp
      · cases hd
      · cases hd; rfl)
    (by intro p hp; cases hp)
    rfl rfl rfl

/-- C10: `MapBase.get(key)` with the default omitted (`default=None`)
returns `None` when the map has no entry for the coerced key: the
`KeyError` is caught, the `None` default is returned without being coerced
to the value type (the result does not depend on the value type at all),
and the map is left unchanged. -/
theorem c10_map_get_missing_returns_none :
    ∀ (keyType valType : Ty) (m : List (Value × Value)) (k k' : Value),
      pyconvert keyType k = .ok k' →
      dLookup k' m = .ok Option.none →
      mapGet keyType valType m k .none = (m, .ok .none) := by
  intro kt vt m k k' h1 h2
  simp [mapGet, h1, h2]

/-- C10 (witness): an int-keyed map holding only key `2`, looked up at the
missing key `1` with the default omitted, returns `None` and keeps its
single entry. -/
theorem c10_map_get_missing_witness :
    mapGet .intT .strT [(.int 2, .str "x")] (.int 1) .none =
      ([(.int 2, .str "x")], .ok .none) := by
  refine c10_map_get_missing_returns_none .intT .strT [(.int 2, .str "x")]
    (.int 1) (.int 1) rfl ?_
  simp [dLookup, pyEqV]

end Confix
